import Mathlib

/-!
# Verification of the Sonic deployer orchestration core

Shallow embedding of the orchestration/report core of the Sonic
token & NFT deployer (`deploy.js` and the unnamed variant
`src/unnamed/part_000`).  Chain submissions, keypair decoding and
`Math.random` draws are external collaborators; they are modelled as
explicit oracle parameters.  Wall-clock timestamps inside
deployment/interaction records are irrelevant to the verified
properties and are omitted from the record structures; the
`Date.now()` millisecond clock used for report file names is modelled
explicitly as a natural number.
-/

deriving instance DecidableEq for Except

namespace Sonic

/-! ## Decimal rendering of JS numbers

Template literals such as `` `Minted ${amount} tokens` `` render a
non-negative integer in decimal.  `decRepr` is that decimal printer,
written with structural fuel so that it evaluates by kernel reduction.
-/
/-- Character for a single decimal digit. -/
def digitChar10 (d : Nat) : Char :=
  if d = 0 then '0' else if d = 1 then '1' else if d = 2 then '2'
  else if d = 3 then '3' else if d = 4 then '4' else if d = 5 then '5'
  else if d = 6 then '6' else if d = 7 then '7' else if d = 8 then '8'
  else '9'

/-- Little-endian decimal digit list of `n`, with fuel. -/
def digitsAux : Nat → Nat → List Char
  | 0, _ => []
  | fuel + 1, n =>
    if n < 10 then [digitChar10 n]
    else digitChar10 (n % 10) :: digitsAux fuel (n / 10)

/-- Decimal string of a natural number (the rendering used by JS
template literals for non-negative integers). -/
def decRepr (n : Nat) : String :=
  ⟨(digitsAux (n + 1) n).reverse⟩

/-- Numeric value of a little-endian decimal digit list. -/
def valRev : List Char → Nat
  | [] => 0
  | c :: cs => (c.toNat - 48) + 10 * valRev cs

/-! ## Settings and the settings menu

`deploy.js` lines 68-71 initialise
`settings = { interactionCount: 3, interactionInterval: 1 }`, and the
settings menu (lines 361-373 of `deploy.js`, 339-351 of `part_000`)
updates a field with `parseInt(input) || default`.  JS numbers entered
through `parseInt` are modelled as exact integers.
-/
structure Settings where
  interactionCount : Int
  interactionInterval : Int

deriving Repr, DecidableEq

/-- The settings object created in the constructor. -/
def defaultSettings : Settings :=
  { interactionCount := 3, interactionInterval := 1 }

/-- Decimal digit test, as used by `parseInt`. -/
def isDecDigit (c : Char) : Bool :=
  48 ≤ c.toNat && c.toNat ≤ 57

/-- Hexadecimal digit value, for `parseInt`'s `0x` prefix handling. -/
def hexDigitVal (c : Char) : Option Nat :=
  if 48 ≤ c.toNat && c.toNat ≤ 57 then some (c.toNat - 48)
  else if 97 ≤ c.toNat && c.toNat ≤ 102 then some (c.toNat - 87)
  else if 65 ≤ c.toNat && c.toNat ≤ 70 then some (c.toNat - 55)
  else none

/-- Value of a decimal digit prefix. -/
def decPrefixVal (cs : List Char) : Nat :=
  (cs.takeWhile isDecDigit).foldl (fun a c => a * 10 + (c.toNat - 48)) 0

/-- Value of a hexadecimal digit prefix. -/
def hexPrefixVal (cs : List Char) : Nat :=
  (cs.takeWhile (fun c => (hexDigitVal c).isSome)).foldl
    (fun a c => a * 16 + (hexDigitVal c).getD 0) 0

/-- JS `parseInt(s)` (radix unspecified): skip leading whitespace,
read an optional sign, then a `0x`/`0X` hexadecimal literal or a
decimal digit prefix; `none` models `NaN` (no digits found). -/
def parseIntJs (s : String) : Option Int :=
  let cs := s.data.dropWhile Char.isWhitespace
  let signed : Int × List Char :=
    match cs with
    | '-' :: rest => (-1, rest)
    | '+' :: rest => (1, rest)
    | _ => (1, cs)
  let sign := signed.1
  match signed.2 with
  | '0' :: 'x' :: rest =>
    if rest.takeWhile (fun c => (hexDigitVal c).isSome) = [] then none
    else some (sign * hexPrefixVal rest)
  | '0' :: 'X' :: rest =>
    if rest.takeWhile (fun c => (hexDigitVal c).isSome) = [] then none
    else some (sign * hexPrefixVal rest)
  | rest =>
    if rest.takeWhile isDecDigit = [] then none
    else some (sign * decPrefixVal rest)

/-- JS `parseInt(input) || default`: `NaN` and `0` are falsy, every other
number is kept. -/
def jsParseOrDefault (input : String) (d : Int) : Int :=
  match parseIntJs input with
  | none => d
  | some n => if n = 0 then d else n

/-- A mutating operation of the settings menu (options 3 and 4 do not
mutate the settings and are omitted). -/
inductive SettingsOp where
  | setCount (input : String)
  | setInterval (input : String)

deriving Repr, DecidableEq

/-- One settings-menu update (`deploy.js` lines 363 and 370). -/
def applySettingsOp (st : Settings) : SettingsOp → Settings
  | .setCount input => { st with interactionCount := jsParseOrDefault input 3 }
  | .setInterval input => { st with interactionInterval := jsParseOrDefault input 1 }

/-- A sequence of settings-menu operations applied in order. -/
def applySettingsOps (ops : List SettingsOp) (st : Settings) : Settings :=
  ops.foldl applySettingsOp st

/-! ## String utilities

JS string operations used by the program, embedded on the underlying
character lists so that they evaluate by kernel reduction:
`split('\n')`, `trim()`, `startsWith`, and the default lexicographic
comparison of `Array.prototype.sort()`.
-/
/-- JS `content.split('\n')`. -/
def jsSplitLines (s : String) : List String :=
  (s.data.splitOn '\n').map fun cs => ⟨cs⟩

/-- Whitespace trimming on a character list (both ends). -/
def trimChars (cs : List Char) : List Char :=
  ((cs.dropWhile Char.isWhitespace).reverse.dropWhile Char.isWhitespace).reverse

/-- JS `s.trim()`. -/
def jsTrim (s : String) : String := ⟨trimChars s.data⟩

/-- Lexicographic comparison of code-unit sequences: the order used by
JS `Array.prototype.sort()` without a comparator. -/
def lexLeChars : List Char → List Char → Bool
  | [], _ => true
  | _ :: _, [] => false
  | a :: as, b :: bs =>
    if a.toNat < b.toNat then true
    else if b.toNat < a.toNat then false
    else lexLeChars as bs

/-- The default JS string ordering, as a proposition. -/
def jsStrLe (a b : String) : Prop := lexLeChars a.data b.data = true

instance : DecidableRel jsStrLe := fun a b => by unfold jsStrLe; infer_instance

/-- JS `file.startsWith('sonic-report-')`. -/
def isReportFile (s : String) : Bool :=
  "sonic-report-".data.isPrefixOf s.data

/-! ## Data model: wallets and assets -/
/-- Value stored in `wallet.tokenAccounts` by `deployToken`:
`{ mint, account }` (mint address and associated token account). -/
structure TokenInfo where
  mint : String
  account : String

deriving Repr, DecidableEq

/-- NFT record stored in `wallet.nftAccounts` by `deployNFT`: the
fields the interaction executor reads (display name and address). -/
structure NftRecord where
  name : String
  address : String

deriving Repr, DecidableEq

/-- A loaded wallet (`init`, `deploy.js` lines 83-97).  The signing
keypair is opaque to the verified core; only the derived public key is
kept. -/
structure Wallet where
  index : Nat
  publicKey : String
  tokenAccounts : List (String × TokenInfo)
  nftAccounts : List (String × NftRecord)

deriving Repr, DecidableEq

/-! ## Wallet loader (`init`, `deploy.js` lines 77-97)

`Keypair.fromSecretKey(bs58.decode(key))` is an external collaborator
modelled by a `decode` oracle returning the derived public key, or
`none` when the line fails to decode.
-/
/-- The line list `split('\n').map(trim).filter(length > 0)`. -/
def nonBlankLines (content : String) : List String :=
  ((jsSplitLines content).map jsTrim).filter fun l => l.length > 0

/-- Wallet object built for the line at 0-based position `idx0` of the
non-blank line list (`index: index + 1`). -/
def mkWallet (pk : String) (idx0 : Nat) : Wallet :=
  { index := idx0 + 1, publicKey := pk, tokenAccounts := [], nftAccounts := [] }

/-- The list `privateKeys.map((key, index) => wallet-or-null).filter(w => w !== null)`:
each non-blank line becomes a wallet (indexed by its position among the
non-blank lines) or is dropped when decoding fails. -/
def walletsOf (decode : String → Option String) (content : String) : List Wallet :=
  (nonBlankLines content).enum.filterMap fun p => (decode p.2).map fun pk => mkWallet pk p.1

/-- The wallet loader: drops blank lines, maps each remaining line to
a wallet (or `null` when decoding fails), filters out the `null`s and
fails when no wallet remains. -/
def loadWallets (decode : String → Option String) (content : String) :
    Except String (List Wallet) :=
  let wallets := walletsOf decode content
  if wallets.length = 0 then .error "No valid wallets found" else .ok wallets

/-- Decoder used in concrete loader scenarios: only the line `good`
decodes. -/
def decodeEx (s : String) : Option String :=
  if s = "good" then some "PK" else none

/-- Decoder used in concrete loader scenarios: lines `k1` and `k2`
decode, everything else is malformed. -/
def decodeEx2 (s : String) : Option String :=
  if s = "k1" then some "P1" else if s = "k2" then some "P2" else none

/-! ## Interaction executor

`performTokenInteraction` exists twice: the complete variant in
`part_000` (lines 194-304, with `Mint failed`/`Transfer failed`/`Burn
failed` wrapping and a `default` clause throwing `Unknown action`),
and the later class-body definition in `deploy.js` (lines 237-285)
which, being the second method of that name, is the one in effect
there — it has no `default` clause, so a `switch` on an unknown action
falls through and the function returns `undefined`.

Chain submissions (`sendAndConfirmTransaction`, the `getAccount`
existence probe, `getOrCreateAssociatedTokenAccount`) and the
`Math.random()` draws are oracles in `InteractEnv`: `rand i k` is the
value of the i-th draw `Math.floor(Math.random() * k)`, `submitOk i`
tells whether the i-th submission of the call confirms.
-/
def TOKEN_INTERACTIONS : List String := ["mint", "transfer", "burn"]

def NFT_INTERACTIONS : List String := ["mint", "transfer", "update"]

/-- Return value of `deployToken`: `{ address, tokenAccount }`. -/
structure TokenData where
  address : String
  tokenAccount : String

deriving Repr, DecidableEq

structure InteractEnv where
  rand : Nat → Nat → Nat
  submitOk : Nat → Bool
  submitErr : Nat → String
  ataExists : Bool

/-- Outcome of one executor call, together with how many random draws
were consumed and how many chain submissions were attempted. -/
structure InteractOut where
  result : Except String String
  draws : Nat
  submissions : Nat

deriving Repr, DecidableEq

def dummyWallet : Wallet :=
  { index := 0, publicKey := "", tokenAccounts := [], nftAccounts := [] }

/-- Function `performTokenInteraction` from `part_000` lines 194-304. -/
def performTokenInteraction (wallets : List Wallet) (wallet : Wallet)
    (tokenData : TokenData) (action : String) (env : InteractEnv) : InteractOut :=
  match List.lookup tokenData.address wallet.tokenAccounts with
  | none => { result := .error "Token not found", draws := 0, submissions := 0 }
  | some _tokenInfo =>
    if action = "mint" then
      let amount := env.rand 0 1000 + 1
      if env.submitOk 0 then
        { result := .ok ("Minted " ++ decRepr amount ++ " tokens"), draws := 1, submissions := 1 }
      else
        { result := .error ("Mint failed: " ++ env.submitErr 0), draws := 1, submissions := 1 }
    else if action = "transfer" then
      let amount := env.rand 0 100 + 1
      let randomWallet := wallets.getD (env.rand 1 wallets.length) dummyWallet
      if env.ataExists then
        if env.submitOk 0 then
          { result := .ok ("Transferred " ++ decRepr amount ++ " tokens to wallet #"
              ++ decRepr randomWallet.index), draws := 2, submissions := 1 }
        else
          { result := .error ("Transfer failed: " ++ env.submitErr 0), draws := 2, submissions := 1 }
      else
        if env.submitOk 0 then
          if env.submitOk 1 then
            { result := .ok ("Transferred " ++ decRepr amount ++ " tokens to wallet #"
                ++ decRepr randomWallet.index), draws := 2, submissions := 2 }
          else
            { result := .error ("Transfer failed: " ++ env.submitErr 1), draws := 2, submissions := 2 }
        else
          { result := .error ("Transfer failed: " ++ env.submitErr 0), draws := 2, submissions := 1 }
    else if action = "burn" then
      let amount := env.rand 0 50 + 1
      if env.submitOk 0 then
        { result := .ok ("Burned " ++ decRepr amount ++ " tokens"), draws := 1, submissions := 1 }
      else
        { result := .error ("Burn failed: " ++ env.submitErr 0), draws := 1, submissions := 1 }
    else
      { result := .error ("Unknown action: " ++ action), draws := 0, submissions := 0 }

/-- The `performTokenInteraction` in effect in `deploy.js` (lines
237-285): no error wrapping, destination account resolved with
`getOrCreateAssociatedTokenAccount`, and no `default` clause — an
unknown action returns `undefined` (modelled as `.ok none`). -/
def performTokenInteractionDJ (wallets : List Wallet) (wallet : Wallet)
    (tokenData : TokenData) (action : String) (env : InteractEnv) :
    Except String (Option String) :=
  match List.lookup tokenData.address wallet.tokenAccounts with
  | none => .error "Token not found"
  | some _tokenInfo =>
    if action = "mint" then
      let amount := env.rand 0 1000 + 1
      if env.submitOk 0 then .ok (some ("Minted " ++ decRepr amount ++ " tokens"))
      else .error (env.submitErr 0)
    else if action = "transfer" then
      let amount := env.rand 0 100 + 1
      let randomWallet := wallets.getD (env.rand 1 wallets.length) dummyWallet
      if env.submitOk 0 then
        if env.submitOk 1 then
          .ok (some ("Transferred " ++ decRepr amount ++ " tokens to wallet #"
            ++ decRepr randomWallet.index))
        else .error (env.submitErr 1)
      else .error (env.submitErr 0)
    else if action = "burn" then
      let amount := env.rand 0 50 + 1
      if env.submitOk 0 then .ok (some ("Burned " ++ decRepr amount ++ " tokens"))
      else .error (env.submitErr 0)
    else .ok none

/-- Oracles for one `performNFTInteraction` call: `now` is
`Date.now()`, `createdAddr` the address minted by `metaplex.nfts().create`. -/
structure NftEnv where
  rand : Nat → Nat → Nat
  now : Nat
  createdAddr : String
  submitOk : Nat → Bool
  submitErr : Nat → String

/-- Outcome of one NFT interaction; `createNames`/`updateNames` record
the display names passed to the create/update collaborator calls. -/
structure NftOut where
  result : Except String (Option String)
  createNames : List String
  updateNames : List String

deriving Repr, DecidableEq

/-- Function `performNFTInteraction` from `deploy.js` lines 287-326.  The
`switch` handles `mint`, `transfer` and `updateMetadata` and has no
`default` clause. -/
def performNFTInteraction (wallets : List Wallet) (wallet : Wallet)
    (nftAddress : String) (action : String) (env : NftEnv) : NftOut :=
  match List.lookup nftAddress wallet.nftAccounts with
  | none => { result := .error "NFT not found", createNames := [], updateNames := [] }
  | some nft =>
    if action = "mint" then
      let newName := nft.name ++ " #" ++ decRepr env.now
      if env.submitOk 0 then
        { result := .ok (some ("Minted new NFT: " ++ env.createdAddr)),
          createNames := [newName], updateNames := [] }
      else
        { result := .error (env.submitErr 0), createNames := [newName], updateNames := [] }
    else if action = "transfer" then
      let randomWallet := wallets.getD (env.rand 0 wallets.length) dummyWallet
      if env.submitOk 0 then
        { result := .ok (some ("Transferred NFT to wallet #" ++ decRepr randomWallet.index)),
          createNames := [], updateNames := [] }
      else
        { result := .error (env.submitErr 0), createNames := [], updateNames := [] }
    else if action = "updateMetadata" then
      let newName := nft.name ++ " Updated " ++ decRepr env.now
      if env.submitOk 0 then
        { result := .ok (some "Updated NFT metadata"), createNames := [], updateNames := [newName] }
      else
        { result := .error (env.submitErr 0), createNames := [], updateNames := [newName] }
    else
      { result := .ok none, createNames := [], updateNames := [] }

/-! ## Orchestrator (`startDeployment`, `deploy.js` lines 388-480,
`part_000` lines 366-462)

Per wallet: balance check against the `0.1 * 1e9` lamport threshold,
one deploy, then `for (let i = 1; i <= interactionCount; i++)` of
randomly drawn interactions.  The executor call is abstracted by the
per-wallet oracle `interact i` (outcome of the i-th attempt), the
action draw by `rand i k`, matching the spec's component boundary.
The inter-iteration `setTimeout` sits INSIDE the `try` block after the
record push, so it runs only when the iteration succeeded and is not
the last one.  An event trace records balance skips, deploys, attempts
and sleeps.
-/
/-- The threshold `0.1 * 1e9` lamports (the JS float product is within 1 ulp of
`100000000`; balances are integer lamports). -/
def balanceThreshold : Nat := 100000000

structure DeploymentRecord where
  walletIndex : Nat
  type : String
  address : String

deriving Repr, DecidableEq

structure InteractionRecord where
  walletIndex : Nat
  type : String
  action : String
  result : String

deriving Repr, DecidableEq

inductive Event where
  | skipLowBalance (walletIndex : Nat)
  | deployed (walletIndex : Nat) (address : String)
  | deployFailed (walletIndex : Nat)
  | attempt (walletIndex : Nat) (iteration : Nat) (action : String)
  | interactOk (walletIndex : Nat) (iteration : Nat)
  | interactFailed (walletIndex : Nat) (iteration : Nat) (msg : String)
  | sleep (ms : Int)

deriving Repr, DecidableEq

/-- Per-wallet oracles for one orchestration pass. -/
structure WalletEnv where
  balance : Nat
  deployOk : Bool
  deployAddr : String
  rand : Nat → Nat → Nat
  interact : Nat → Except String String

structure RunOut where
  events : List Event
  deployments : List DeploymentRecord
  interactions : List InteractionRecord

deriving Repr, DecidableEq

def isAttempt : Event → Bool
  | .attempt _ _ _ => true
  | _ => false

def isSleep : Event → Bool
  | .sleep _ => true
  | _ => false

def isOkE : Except String String → Bool
  | .ok _ => true
  | .error _ => false

/-- The interaction loop body, iterated structurally: `remaining`
iterations left, current loop counter `i`.  One attempt per iteration;
on success the record is pushed and, unless this was the last
iteration (`i < interactionCount`, i.e. `remaining ≠ 0`), the
orchestrator sleeps `interactionInterval` minutes; on failure the
error is logged and the loop moves on without sleeping. -/
def interactionIter (kind : String) (actions : List String) (s : Settings)
    (w : Wallet) (env : WalletEnv) : Nat → Nat → List Event × List InteractionRecord
  | 0, _ => ([], [])
  | remaining + 1, i =>
    let action := actions.getD (env.rand i actions.length) ""
    let rest := interactionIter kind actions s w env remaining (i + 1)
    match env.interact i with
    | .ok r =>
      (Event.attempt w.index i action :: Event.interactOk w.index i ::
        ((if remaining ≠ 0 then [Event.sleep (s.interactionInterval * 60 * 1000)] else [])
          ++ rest.1),
       { walletIndex := w.index, type := kind, action := action, result := r } :: rest.2)
    | .error m =>
      (Event.attempt w.index i action :: Event.interactFailed w.index i m :: rest.1, rest.2)

/-- Processing of a single wallet inside `startDeployment`'s `for
(const wallet of this.wallets)` loop: balance gate, deploy, deployment
record, interaction loop.  A deploy failure is caught by the per-wallet
`catch` and skips the wallet's interaction phase. -/
def processWallet (kind : String) (actions : List String) (s : Settings)
    (w : Wallet) (env : WalletEnv) : RunOut :=
  if env.balance < balanceThreshold then
    { events := [.skipLowBalance w.index], deployments := [], interactions := [] }
  else if env.deployOk then
    let loop := interactionIter kind actions s w env s.interactionCount.toNat 1
    { events := .deployed w.index env.deployAddr :: loop.1,
      deployments := [{ walletIndex := w.index, type := kind, address := env.deployAddr }],
      interactions := loop.2 }
  else
    { events := [.deployFailed w.index], deployments := [], interactions := [] }

/-- One full orchestration pass over the loaded wallets, in load
order, accumulating the event trace and the append-only record
lists. -/
def runDeployment (kind : String) (actions : List String) (s : Settings) :
    List (Wallet × WalletEnv) → RunOut
  | [] => { events := [], deployments := [], interactions := [] }
  | (w, env) :: rest =>
    let head := processWallet kind actions s w env
    let tail := runDeployment kind actions s rest
    { events := head.events ++ tail.events,
      deployments := head.deployments ++ tail.deployments,
      interactions := head.interactions ++ tail.interactions }

/-! ## Report generator (`generateReport` / `viewPreviousReports`)

`generateReport` writes to `` `sonic-report-${Date.now()}.txt` ``;
`viewPreviousReports` lists `readdirSync('.')` filtered by the
`sonic-report-` prefix, `.sort()`ed (default lexicographic string
order) and `.reverse()`d.
-/
/-- The file name of a report generated when `Date.now()` reads `now`. -/
def reportFilename (now : Nat) : String :=
  "sonic-report-" ++ decRepr now ++ ".txt"

/-- Name of the k-th report generation within a run whose millisecond
clock is `clock`. -/
def generatedReportName (clock : Nat → Nat) (k : Nat) : String :=
  reportFilename (clock k)

instance : IsTotal String jsStrLe :=
  ⟨by
    intro a b
    show lexLeChars a.data b.data = true ∨ lexLeChars b.data a.data = true
    induction a.data generalizing b with
    | nil => left; rfl
    | cons x xs ih =>
      cases b.data with
      | nil => right; rfl
      | cons y ys =>
        by_cases hxy : x.toNat < y.toNat
        · left; simp [lexLeChars, hxy]
        · by_cases hyx : y.toNat < x.toNat
          · right; simp [lexLeChars, hyx]
          · rcases ih ⟨ys⟩ with h | h
            · left; simpa [lexLeChars, hxy, hyx] using h
            · right; simpa [lexLeChars, hxy, hyx] using h⟩

instance : IsTrans String jsStrLe :=
  ⟨by
    intro a b c
    show lexLeChars a.data b.data = true → lexLeChars b.data c.data = true →
      lexLeChars a.data c.data = true
    induction a.data generalizing b c with
    | nil => intro _ _; rfl
    | cons x xs ih =>
      cases hb : b.data with
      | nil => intro h; simp [lexLeChars] at h
      | cons y ys =>
        cases hc : c.data with
        | nil => intro _ h; simp [lexLeChars] at h
        | cons z zs =>
          intro hab hbc
          simp only [lexLeChars] at hab hbc ⊢
          by_cases hxy : x.toNat < y.toNat
          · by_cases hyz : y.toNat < z.toNat
            · have : x.toNat < z.toNat := Nat.lt_trans hxy hyz
              simp [this]
            · by_cases hzy : z.toNat < y.toNat
              · simp [hzy] at hbc; omega
              · have : x.toNat < z.toNat := by omega
                simp [this]
          · by_cases hyx : y.toNat < x.toNat
            · simp [hxy, hyx] at hab
            · by_cases hyz : y.toNat < z.toNat
              · have : x.toNat < z.toNat := by omega
                simp [this]
              · by_cases hzy : z.toNat < y.toNat
                · simp [hzy] at hbc; omega
                · have hxz : ¬ x.toNat < z.toNat := by omega
                  have hzx : ¬ z.toNat < x.toNat := by omega
                  simp only [hxy, hyx, if_false] at hab
                  simp only [hyz, hzy, if_false] at hbc
                  simp only [hxz, hzx, if_false]
                  exact ih ⟨ys⟩ ⟨zs⟩ (by simpa using hab) (by simpa using hbc)⟩

/-- The listing of persisted report files in `viewPreviousReports`. -/
def listPreviousReports (files : List String) : List String :=
  (List.insertionSort jsStrLe (files.filter fun f => isReportFile f)).reverse

/-! ## Concrete scenario data

Wallets, token data and oracle instantiations used by the closed
scenario theorems below.
-/
def wEx1 : Wallet :=
  { index := 1, publicKey := "A",
    tokenAccounts := [("MINT", { mint := "MINT", account := "ATA1" })],
    nftAccounts := [] }

def wEx2 : Wallet :=
  { index := 2, publicKey := "B", tokenAccounts := [], nftAccounts := [] }

def wEx3 : Wallet :=
  { index := 3, publicKey := "C", tokenAccounts := [], nftAccounts := [] }

def tdEx : TokenData := { address := "MINT", tokenAccount := "ATA1" }

/-- Executor oracles: draws `500`, `7`, `3` for the bounds `1000`,
`100`, `50`, draw `0` for the wallet pick (the sender itself), all
submissions confirm. -/
def envEx : InteractEnv :=
  { rand := fun _ k => if k = 1000 then 500 else if k = 100 then 7 else if k = 50 then 3 else 0,
    submitOk := fun _ => true, submitErr := fun _ => "", ataExists := true }

def nftWEx : Wallet :=
  { index := 1, publicKey := "A", tokenAccounts := [],
    nftAccounts := [("NFTADDR", { name := "ONIXIA NFT", address := "NFTADDR" })] }

def nftEnvEx : NftEnv :=
  { rand := fun _ _ => 0, now := 777, createdAddr := "NEWNFT",
    submitOk := fun _ => true, submitErr := fun _ => "" }

/-- Wallet oracles: sufficient balance, deploy succeeds, every
interaction attempt fails. -/
def wenvAllFail : WalletEnv :=
  { balance := 200000000, deployOk := true, deployAddr := "MINT",
    rand := fun _ _ => 0, interact := fun _ => .error "boom" }

/-- Wallet oracles: deploy succeeds, attempt 2 fails, the others
succeed. -/
def wenvMixed : WalletEnv :=
  { balance := 200000000, deployOk := true, deployAddr := "MINT",
    rand := fun _ _ => 0, interact := fun i => if i = 2 then .error "boom" else .ok "done" }

/-- Wallet oracles: sufficient balance but the deploy fails. -/
def wenvDeployFail : WalletEnv :=
  { balance := 200000000, deployOk := false, deployAddr := "",
    rand := fun _ _ => 0, interact := fun _ => .ok "done" }

/-- Wallet oracles: everything succeeds. -/
def wenvAllOk : WalletEnv :=
  { balance := 200000000, deployOk := true, deployAddr := "MINT",
    rand := fun _ _ => 0, interact := fun _ => .ok "done" }

def sTwo : Settings := { interactionCount := 2, interactionInterval := 1 }

def sThreeNoDelay : Settings := { interactionCount := 3, interactionInterval := 0 }


theorem digitChar10_toNat : ∀ d : Nat, d < 10 → (digitChar10 d).toNat = 48 + d := by
  decide

theorem valRev_digitsAux (fuel n : Nat) (h : n < fuel) :
    valRev (digitsAux fuel n) = n := by
  induction fuel generalizing n with
  | zero => omega
  | succ fuel ih =>
    unfold digitsAux
    by_cases h10 : n < 10
    · simp only [if_pos h10, valRev]
      have := digitChar10_toNat n h10
      omega
    · simp only [if_neg h10, valRev]
      have hlt : n / 10 < fuel := by omega
      rw [ih (n / 10) hlt]
      have := digitChar10_toNat (n % 10) (Nat.mod_lt _ (by omega))
      omega

theorem decRepr_injective : Function.Injective decRepr := by
  intro a b h
  have hdata : (digitsAux (a + 1) a).reverse = (digitsAux (b + 1) b).reverse :=
    congrArg String.data h
  have : digitsAux (a + 1) a = digitsAux (b + 1) b :=
    List.reverse_injective hdata
  have ha := valRev_digitsAux (a + 1) a (by omega)
  have hb := valRev_digitsAux (b + 1) b (by omega)
  rw [this] at ha
  omega

theorem jsParseOrDefault_ne_zero (input : String) (d : Int) (hd : d ≠ 0) :
    jsParseOrDefault input d ≠ 0 := by
  unfold jsParseOrDefault
  cases parseIntJs input with
  | none => simpa using hd
  | some n =>
    by_cases h : n = 0
    · simpa [h] using hd
    · simp [h]

theorem filterMap_decode_indices (decode : String → Option String) :
    ∀ l : List (Nat × String),
      ((l.filterMap fun p => (decode p.2).map fun pk => mkWallet pk p.1).map fun w => w.index)
        = (l.filter fun p => (decode p.2).isSome).map fun p => p.1 + 1 := by
  intro l
  induction l with
  | nil => rfl
  | cons p l ih =>
    cases h : decode p.2 with
    | none => simp [List.filterMap_cons, h, List.filter_cons, ih]
    | some pk =>
      have hx : (mkWallet pk p.1).index = p.1 + 1 := rfl
      simp [List.filterMap_cons, h, List.filter_cons, hx, ih]

theorem length_filter_enumFrom (q : String → Bool) :
    ∀ (n : Nat) (l : List String),
      ((List.enumFrom n l).filter fun p => q p.2).length = (l.filter q).length := by
  intro n l
  induction l generalizing n with
  | nil => rfl
  | cons a l ih =>
    by_cases h : q a
    · simp [List.enumFrom, List.filter_cons, h, ih]
    · simp [List.enumFrom, List.filter_cons, h, ih]

theorem le_fst_of_mem_enumFrom {α : Type} {p : Nat × α} :
    ∀ {n : Nat} {l : List α}, p ∈ List.enumFrom n l → n ≤ p.1 := by
  intro n l
  induction l generalizing n with
  | nil => intro h; simp [List.enumFrom] at h
  | cons a l ih =>
    intro h
    simp only [List.enumFrom, List.mem_cons] at h
    rcases h with h | h
    · subst h; exact le_refl _
    · exact Nat.le_of_succ_le (ih h)

theorem pairwise_fst_lt_enumFrom {α : Type} :
    ∀ (n : Nat) (l : List α), (List.enumFrom n l).Pairwise fun p q => p.1 < q.1 := by
  intro n l
  induction l generalizing n with
  | nil => exact List.Pairwise.nil
  | cons a l ih =>
    refine List.Pairwise.cons ?_ (ih (n + 1))
    intro q hq
    exact Nat.lt_of_lt_of_le (Nat.lt_succ_self n) (le_fst_of_mem_enumFrom hq)

/-- C8 counterexample: on the key file `bad\ngood` whose first line is
malformed, the loader yields exactly one wallet, but that wallet's
index is 2, not 1 — the indices are positions among the non-blank
lines, not a consecutive 1-based numbering of the loaded wallets. -/
theorem loadWallets_index_counterexample :
    loadWallets decodeEx "bad\ngood" = .ok [mkWallet "PK" 1]
      ∧ (mkWallet "PK" 1).index = 2 := by
  decide

/-- C8 (amended): for every key file with at least one decodable
non-blank line, the loader succeeds; a successful load yields exactly
one wallet per decodable line (blank lines dropped, malformed lines
skipped), and the wallets carry the 1-based positions of their lines
among the non-blank lines — strictly increasing in file order, but
with gaps where malformed lines sit. -/
theorem loadWallets_spec (decode : String → Option String) (content : String) :
    (((nonBlankLines content).any fun l => (decode l).isSome) = true →
        ∃ ws, loadWallets decode content = .ok ws)
    ∧ ∀ ws, loadWallets decode content = .ok ws →
        ws.length = ((nonBlankLines content).filter fun l => (decode l).isSome).length
        ∧ (ws.map fun w => w.index)
            = ((nonBlankLines content).enum.filter fun p => (decode p.2).isSome).map
                (fun p => p.1 + 1)
        ∧ (ws.map fun w => w.index).Pairwise (· < ·) := by
  have henum : (nonBlankLines content).enum = List.enumFrom 0 (nonBlankLines content) := rfl
  have hidx : ((walletsOf decode content).map fun w => w.index)
      = ((nonBlankLines content).enum.filter fun p => (decode p.2).isSome).map
          (fun p => p.1 + 1) :=
    filterMap_decode_indices decode (nonBlankLines content).enum
  have hlen : (walletsOf decode content).length
      = ((nonBlankLines content).filter fun l => (decode l).isSome).length := by
    have h1 : (walletsOf decode content).length
        = ((walletsOf decode content).map fun w => w.index).length :=
      (List.length_map _ _).symm
    rw [h1, hidx, List.length_map, henum]
    exact length_filter_enumFrom (fun l => (decode l).isSome) 0 (nonBlankLines content)
  have hpair : (((nonBlankLines content).enum.filter fun p => (decode p.2).isSome).map
      (fun p => p.1 + 1)).Pairwise (· < ·) := by
    rw [List.pairwise_map]
    refine List.Pairwise.filter _ ?_
    rw [henum]
    exact (pairwise_fst_lt_enumFrom 0 (nonBlankLines content)).imp (by omega)
  constructor
  · intro hany
    rw [List.any_eq_true] at hany
    obtain ⟨l, hl, hsome⟩ := hany
    have hmem : l ∈ (nonBlankLines content).filter fun l => (decode l).isSome :=
      List.mem_filter.mpr ⟨hl, hsome⟩
    have hne : (walletsOf decode content).length ≠ 0 := by
      rw [hlen]
      have := List.length_pos.mpr (List.ne_nil_of_mem hmem)
      omega
    exact ⟨walletsOf decode content, by simp [loadWallets, hne]⟩
  · intro ws hok
    have hws : ws = walletsOf decode content := by
      by_cases hc : (walletsOf decode content).length = 0
      · simp [loadWallets, hc] at hok
      · simp [loadWallets, hc] at hok
        exact hok.symm
    subst hws
    exact ⟨hlen, hidx, hidx ▸ hpair⟩

/-- Witness for C8: the spec scenario — two decodable keys, one blank
line, one malformed line — loads successfully with exactly two
wallets, indices `[1, 2]`. -/
theorem loadWallets_spec_witness :
    (∃ ws, loadWallets decodeEx2 "k1\nk2\n\nmalformed" = .ok ws)
      ∧ ∀ ws, loadWallets decodeEx2 "k1\nk2\n\nmalformed" = .ok ws →
          ws.length = 2 ∧ (ws.map fun w => w.index) = [1, 2] := by
  obtain ⟨hex, hall⟩ := loadWallets_spec decodeEx2 "k1\nk2\n\nmalformed"
  refine ⟨hex (by decide), ?_⟩
  intro ws hok
  obtain ⟨hlen, hidx, _⟩ := hall ws hok
  constructor
  · rw [hlen]; decide
  · rw [hidx]; decide

/-! ## Orchestrator lemmas -/
theorem interactionIter_zero (kind : String) (actions : List String)
    (s : Settings) (w : Wallet) (env : WalletEnv) (i : Nat) :
    interactionIter kind actions s w env 0 i = ([], []) := rfl

theorem interactionIter_succ (kind : String) (actions : List String)
    (s : Settings) (w : Wallet) (env : WalletEnv) (r i : Nat) :
    interactionIter kind actions s w env (r + 1) i =
      (let action := actions.getD (env.rand i actions.length) ""
       let rest := interactionIter kind actions s w env r (i + 1)
       match env.interact i with
       | .ok res =>
         (Event.attempt w.index i action :: Event.interactOk w.index i ::
           ((if r ≠ 0 then [Event.sleep (s.interactionInterval * 60 * 1000)] else [])
             ++ rest.1),
          { walletIndex := w.index, type := kind, action := action, result := res }
            :: rest.2)
       | .error m =>
         (Event.attempt w.index i action :: Event.interactFailed w.index i m :: rest.1,
          rest.2)) := rfl

theorem interactionIter_countP_attempt (kind : String) (actions : List String)
    (s : Settings) (w : Wallet) (env : WalletEnv) :
    ∀ r i, ((interactionIter kind actions s w env r i).1.countP isAttempt) = r := by
  intro r
  induction r with
  | zero => intro i; rfl
  | succ r ih =>
    intro i
    unfold interactionIter
    cases env.interact i with
    | ok v =>
      by_cases hr : r = 0 <;>
        simp [hr, interactionIter_zero, List.countP_cons, List.countP_append, isAttempt, ih]
    | error m =>
      simp [List.countP_cons, isAttempt, ih]

theorem interactionIter_countP_sleep (kind : String) (actions : List String)
    (s : Settings) (w : Wallet) (env : WalletEnv) :
    ∀ r i, ((interactionIter kind actions s w env r i).1.countP isSleep)
      = (List.range' i (r - 1)).countP fun j => isOkE (env.interact j) := by
  intro r
  induction r with
  | zero => intro i; rfl
  | succ r ih =>
    intro i
    unfold interactionIter
    cases hi : env.interact i with
    | ok v =>
      cases r with
      | zero => simp [interactionIter_zero, List.countP_cons, List.countP_append, isSleep]
      | succ rr =>
        rw [Nat.succ_sub_one, List.range'_succ i rr 1]
        simp [List.countP_cons, List.countP_append, isSleep, ih, isOkE, hi]
    | error m =>
      cases r with
      | zero => simp [interactionIter_zero, List.countP_cons, isSleep]
      | succ rr =>
        rw [Nat.succ_sub_one, List.range'_succ i rr 1]
        simp [List.countP_cons, isSleep, ih, isOkE, hi]

theorem interactionIter_sleep_value (kind : String) (actions : List String)
    (s : Settings) (w : Wallet) (env : WalletEnv) :
    ∀ r i e, e ∈ (interactionIter kind actions s w env r i).1 → isSleep e = true →
      e = .sleep (s.interactionInterval * 60 * 1000) := by
  intro r
  induction r with
  | zero => intro i e he _; simp [interactionIter] at he
  | succ r ih =>
    intro i e he hs
    cases hi : env.interact i with
    | ok v =>
      simp only [interactionIter, hi, List.mem_cons, List.mem_append] at he
      rcases he with rfl | rfl | he | he
      · simp [isSleep] at hs
      · simp [isSleep] at hs
      · by_cases hr : r ≠ 0
        · simp [hr] at he
          exact he ▸ rfl
        · simp [hr] at he
      · exact ih (i + 1) e he hs
    | error m =>
      simp only [interactionIter, hi, List.mem_cons] at he
      rcases he with rfl | rfl | he
      · simp [isSleep] at hs
      · simp [isSleep] at hs
      · exact ih (i + 1) e he hs

theorem interactionIter_last_not_sleep (kind : String) (actions : List String)
    (s : Settings) (w : Wallet) (env : WalletEnv) :
    ∀ r i, 1 ≤ r → ∃ l e, (interactionIter kind actions s w env r i).1 = l ++ [e]
      ∧ isSleep e = false := by
  intro r
  induction r with
  | zero => intro i h; omega
  | succ r ih =>
    intro i _
    cases r with
    | zero =>
      cases hi : env.interact i with
      | ok v =>
        exact ⟨[.attempt w.index i (actions.getD (env.rand i actions.length) "")],
          .interactOk w.index i, by simp [interactionIter, hi], rfl⟩
      | error m =>
        exact ⟨[.attempt w.index i (actions.getD (env.rand i actions.length) "")],
          .interactFailed w.index i m, by simp [interactionIter, hi], rfl⟩
    | succ rr =>
      obtain ⟨l, e, hl, he⟩ := ih (i + 1) (by omega)
      cases hi : env.interact i with
      | ok v =>
        refine ⟨.attempt w.index i (actions.getD (env.rand i actions.length) "")
            :: .interactOk w.index i
            :: ([.sleep (s.interactionInterval * 60 * 1000)] ++ l), e, ?_, he⟩
        rw [interactionIter_succ kind actions s w env (rr + 1) i, hi]
        dsimp only
        rw [hl]
        simp
      | error m =>
        refine ⟨.attempt w.index i (actions.getD (env.rand i actions.length) "")
            :: .interactFailed w.index i m :: l, e, ?_, he⟩
        rw [interactionIter_succ kind actions s w env (rr + 1) i, hi]
        dsimp only
        rw [hl]
        simp

theorem interactionIter_records_index (kind : String) (actions : List String)
    (s : Settings) (w : Wallet) (env : WalletEnv) :
    ∀ r i rec, rec ∈ (interactionIter kind actions s w env r i).2 →
      rec.walletIndex = w.index := by
  intro r
  induction r with
  | zero => intro i rec h; simp [interactionIter] at h
  | succ r ih =>
    intro i rec h
    cases hi : env.interact i with
    | ok v =>
      simp only [interactionIter, hi, List.mem_cons] at h
      rcases h with rfl | h
      · rfl
      · exact ih (i + 1) rec h
    | error m =>
      simp only [interactionIter, hi] at h
      exact ih (i + 1) rec h

theorem interactionIter_all_fail_no_records (kind : String) (actions : List String)
    (s : Settings) (w : Wallet) (env : WalletEnv)
    (hfail : ∀ j, isOkE (env.interact j) = false) :
    ∀ r i, (interactionIter kind actions s w env r i).2 = [] := by
  intro r
  induction r with
  | zero => intro i; rfl
  | succ r ih =>
    intro i
    unfold interactionIter
    cases hi : env.interact i with
    | ok v => have := hfail i; simp [isOkE, hi] at this
    | error m => simp [ih]

theorem processWallet_deployFailed_empty (kind : String) (actions : List String)
    (s : Settings) (w : Wallet) (env : WalletEnv) (hd : env.deployOk = false) :
    (processWallet kind actions s w env).deployments = []
      ∧ (processWallet kind actions s w env).interactions = [] := by
  unfold processWallet
  by_cases hb : env.balance < balanceThreshold <;> simp [hb, hd]

theorem processWallet_deployments_index (kind : String) (actions : List String)
    (s : Settings) (w : Wallet) (env : WalletEnv) :
    ∀ d ∈ (processWallet kind actions s w env).deployments, d.walletIndex = w.index := by
  intro d hd
  unfold processWallet at hd
  by_cases hb : env.balance < balanceThreshold
  · simp [hb] at hd
  · by_cases hdep : env.deployOk = true
    · simp [hb, hdep] at hd
      subst hd; rfl
    · simp [hb, hdep] at hd

theorem processWallet_interactions_index (kind : String) (actions : List String)
    (s : Settings) (w : Wallet) (env : WalletEnv) :
    ∀ rec ∈ (processWallet kind actions s w env).interactions,
      rec.walletIndex = w.index := by
  intro rec hrec
  unfold processWallet at hrec
  by_cases hb : env.balance < balanceThreshold
  · simp [hb] at hrec
  · by_cases hdep : env.deployOk = true
    · simp [hb, hdep] at hrec
      exact interactionIter_records_index kind actions s w env _ 1 rec hrec
    · simp [hb, hdep] at hrec

theorem runDeployment_append (kind : String) (actions : List String) (s : Settings) :
    ∀ xs ys : List (Wallet × WalletEnv),
      runDeployment kind actions s (xs ++ ys)
        = { events := (runDeployment kind actions s xs).events
              ++ (runDeployment kind actions s ys).events,
            deployments := (runDeployment kind actions s xs).deployments
              ++ (runDeployment kind actions s ys).deployments,
            interactions := (runDeployment kind actions s xs).interactions
              ++ (runDeployment kind actions s ys).interactions } := by
  intro xs ys
  induction xs with
  | nil => simp [runDeployment]
  | cons p xs ih =>
    obtain ⟨w, env⟩ := p
    simp [runDeployment, ih, List.append_assoc]

theorem runDeployment_deployments_index (kind : String) (actions : List String)
    (s : Settings) :
    ∀ (ws : List (Wallet × WalletEnv)) (d : DeploymentRecord),
      d ∈ (runDeployment kind actions s ws).deployments →
        ∃ p ∈ ws, d.walletIndex = p.1.index := by
  intro ws
  induction ws with
  | nil => intro d hd; simp [runDeployment] at hd
  | cons p ws ih =>
    intro d hd
    obtain ⟨w, env⟩ := p
    simp only [runDeployment, List.mem_append] at hd
    rcases hd with hd | hd
    · exact ⟨(w, env), List.mem_cons_self _ _,
        processWallet_deployments_index kind actions s w env d hd⟩
    · obtain ⟨q, hq, hqi⟩ := ih d hd
      exact ⟨q, List.mem_cons_of_mem _ hq, hqi⟩

theorem runDeployment_interactions_index (kind : String) (actions : List String)
    (s : Settings) :
    ∀ (ws : List (Wallet × WalletEnv)) (rec : InteractionRecord),
      rec ∈ (runDeployment kind actions s ws).interactions →
        ∃ p ∈ ws, rec.walletIndex = p.1.index := by
  intro ws
  induction ws with
  | nil => intro rec h; simp [runDeployment] at h
  | cons p ws ih =>
    intro rec h
    obtain ⟨w, env⟩ := p
    simp only [runDeployment, List.mem_append] at h
    rcases h with h | h
    · exact ⟨(w, env), List.mem_cons_self _ _,
        processWallet_interactions_index kind actions s w env rec h⟩
    · obtain ⟨q, hq, hqi⟩ := ih rec h
      exact ⟨q, List.mem_cons_of_mem _ hq, hqi⟩

theorem runDeployment_cons (kind : String) (actions : List String) (s : Settings)
    (w : Wallet) (env : WalletEnv) (rest : List (Wallet × WalletEnv)) :
    runDeployment kind actions s ((w, env) :: rest)
      = { events := (processWallet kind actions s w env).events
            ++ (runDeployment kind actions s rest).events,
          deployments := (processWallet kind actions s w env).deployments
            ++ (runDeployment kind actions s rest).deployments,
          interactions := (processWallet kind actions s w env).interactions
            ++ (runDeployment kind actions s rest).interactions } := rfl

theorem applySettingsOps_nonzero (ops : List SettingsOp) :
    ∀ st : Settings, st.interactionCount ≠ 0 → st.interactionInterval ≠ 0 →
      (applySettingsOps ops st).interactionCount ≠ 0
      ∧ (applySettingsOps ops st).interactionInterval ≠ 0 := by
  induction ops with
  | nil => intro st h1 h2; exact ⟨h1, h2⟩
  | cons op ops ih =>
    intro st h1 h2
    cases op with
    | setCount input =>
      exact ih _ (jsParseOrDefault_ne_zero input 3 (by decide)) h2
    | setInterval input =>
      exact ih _ h1 (jsParseOrDefault_ne_zero input 1 (by decide))

/-! ## Claim theorems -/
/-- C1: for a wallet whose balance passes the threshold and whose
deploy succeeds, the orchestrator makes exactly
`settings.interactionCount` interaction attempts.  The statement holds
for EVERY interaction-outcome oracle `env.interact`, so the count is
independent of how many attempts fail: a failed attempt is logged but
neither retried nor removed from the count. -/
theorem C1_attempts_eq_interactionCount (kind : String) (actions : List String)
    (s : Settings) (w : Wallet) (env : WalletEnv)
    (hb : ¬ env.balance < balanceThreshold) (hd : env.deployOk = true)
    (hc : 0 ≤ s.interactionCount) :
    (((processWallet kind actions s w env).events.countP isAttempt : Int))
      = s.interactionCount := by
  have h1 : (processWallet kind actions s w env).events
      = .deployed w.index env.deployAddr
        :: (interactionIter kind actions s w env s.interactionCount.toNat 1).1 := by
    unfold processWallet
    rw [if_neg hb, if_pos hd]
  rw [h1, List.countP_cons]
  simp [isAttempt, interactionIter_countP_attempt]
  omega

/-- Witness for C1: three attempts are recorded under the default
settings even though attempt 2 fails. -/
theorem C1_attempts_eq_interactionCount_witness :
    ((processWallet "Token" TOKEN_INTERACTIONS defaultSettings wEx1 wenvMixed).events.countP
      isAttempt : Int) = 3 :=
  C1_attempts_eq_interactionCount "Token" TOKEN_INTERACTIONS defaultSettings wEx1 wenvMixed
    (by decide) (by decide) (by decide)

/-- C2: with the asset present in the wallet's map and all chain
submissions confirming: `mint` draws its amount in `[1, 1000]` and
returns `Minted N tokens`; `transfer` draws its amount in `[1, 100]`,
picks the destination by a raw draw over the FULL wallet list (the
sender is not excluded) and returns
`Transferred N tokens to wallet #I` where `I` is the picked wallet's
index; `burn` draws in `[1, 50]` and returns `Burned N tokens`. -/
theorem C2_token_interaction_results (wallets : List Wallet) (wallet : Wallet)
    (tokenData : TokenData) (info : TokenInfo) (env : InteractEnv)
    (hlook : List.lookup tokenData.address wallet.tokenAccounts = some info)
    (hsub : ∀ i, env.submitOk i = true)
    (h1000 : env.rand 0 1000 < 1000) (h100 : env.rand 0 100 < 100)
    (h50 : env.rand 0 50 < 50) (hw : env.rand 1 wallets.length < wallets.length) :
    ((performTokenInteraction wallets wallet tokenData "mint" env).result
        = .ok ("Minted " ++ decRepr (env.rand 0 1000 + 1) ++ " tokens")
      ∧ 1 ≤ env.rand 0 1000 + 1 ∧ env.rand 0 1000 + 1 ≤ 1000)
    ∧ ((performTokenInteraction wallets wallet tokenData "transfer" env).result
        = .ok ("Transferred " ++ decRepr (env.rand 0 100 + 1) ++ " tokens to wallet #"
            ++ decRepr (wallets.getD (env.rand 1 wallets.length) dummyWallet).index)
      ∧ wallets.getD (env.rand 1 wallets.length) dummyWallet ∈ wallets
      ∧ 1 ≤ env.rand 0 100 + 1 ∧ env.rand 0 100 + 1 ≤ 100)
    ∧ ((performTokenInteraction wallets wallet tokenData "burn" env).result
        = .ok ("Burned " ++ decRepr (env.rand 0 50 + 1) ++ " tokens")
      ∧ 1 ≤ env.rand 0 50 + 1 ∧ env.rand 0 50 + 1 ≤ 50) := by
  refine ⟨⟨?_, by omega, by omega⟩, ⟨?_, ?_, by omega, by omega⟩, ⟨?_, by omega, by omega⟩⟩
  · unfold performTokenInteraction
    rw [hlook]
    simp [hsub 0]
  · unfold performTokenInteraction
    rw [hlook]
    by_cases hata : env.ataExists = true <;> simp [hata, hsub 0, hsub 1]
  · rw [List.getD_eq_getElem wallets dummyWallet hw]
    exact List.getElem_mem hw
  · unfold performTokenInteraction
    rw [hlook]
    simp [hsub 0]

/-- Witness for C2: concrete draws 500 / 7 / 3, with the transfer
draw 0 picking the sender itself (wallet #1). -/
theorem C2_token_interaction_results_witness :
    (performTokenInteraction [wEx1, wEx2] wEx1 tdEx "mint" envEx).result
        = .ok "Minted 501 tokens"
    ∧ (performTokenInteraction [wEx1, wEx2] wEx1 tdEx "transfer" envEx).result
        = .ok "Transferred 8 tokens to wallet #1"
    ∧ (performTokenInteraction [wEx1, wEx2] wEx1 tdEx "burn" envEx).result
        = .ok "Burned 4 tokens" := by
  have h := C2_token_interaction_results [wEx1, wEx2] wEx1 tdEx
    { mint := "MINT", account := "ATA1" } envEx (by decide) (fun i => rfl)
    (by decide) (by decide) (by decide) (by decide)
  refine ⟨?_, ?_, ?_⟩
  · rw [h.1.1]; decide
  · rw [h.2.1.1]; decide
  · rw [h.2.2.1]; decide

/-- C3 counterexample: the `performTokenInteraction` in effect in
`deploy.js` (the second, overriding class-body definition) has no
`default` clause, so the unknown action `foo` returns normally
(`undefined`) instead of raising an error. -/
theorem C3_unknown_action_counterexample :
    performTokenInteractionDJ [wEx1] wEx1 tdEx "foo" envEx = .ok none := by
  decide

/-- C3 (amended): for an action outside {mint, transfer, burn} with
the asset present, the `part_000` variant raises
`Unknown action: <action>`, while the variant in effect in `deploy.js`
falls through its `switch` and returns `undefined` without raising. -/
theorem C3_unknown_action_variants (wallets : List Wallet) (wallet : Wallet)
    (tokenData : TokenData) (info : TokenInfo) (env : InteractEnv) (action : String)
    (hlook : List.lookup tokenData.address wallet.tokenAccounts = some info)
    (hm : action ≠ "mint") (ht : action ≠ "transfer") (hb : action ≠ "burn") :
    (performTokenInteraction wallets wallet tokenData action env).result
        = .error ("Unknown action: " ++ action)
    ∧ performTokenInteractionDJ wallets wallet tokenData action env = .ok none := by
  constructor
  · unfold performTokenInteraction
    rw [hlook]
    simp [hm, ht, hb]
  · unfold performTokenInteractionDJ
    rw [hlook]
    simp [hm, ht, hb]

/-- Witness for C3 (amended) at the concrete action `foo`. -/
theorem C3_unknown_action_variants_witness :
    (performTokenInteraction [wEx1] wEx1 tdEx "foo" envEx).result
        = .error "Unknown action: foo"
    ∧ performTokenInteractionDJ [wEx1] wEx1 tdEx "foo" envEx = .ok none := by
  have h := C3_unknown_action_variants [wEx1] wEx1 tdEx
    { mint := "MINT", account := "ATA1" } envEx "foo" (by decide) (by decide)
    (by decide) (by decide)
  exact ⟨by rw [h.1]; decide, h.2⟩

/-- C4 (bug exhibit): the orchestrator draws NFT actions from
`NFT_INTERACTIONS = [mint, transfer, update]`, whose third entry is
`update`, not the `updateMetadata` the claim names; `updateMetadata`
is not in the drawn pool at all, and `performNFTInteraction` does not
handle the drawn `update`: it returns `undefined` and performs no
metadata rewrite.  The `updateMetadata` path itself does rewrite the
display name with a timestamp suffix and returns an outcome string. -/
theorem C4_nft_update_action_mismatch :
    NFT_INTERACTIONS.getD 2 "" = "update"
    ∧ "updateMetadata" ∉ NFT_INTERACTIONS
    ∧ (performNFTInteraction [nftWEx] nftWEx "NFTADDR" "update" nftEnvEx).result = .ok none
    ∧ (performNFTInteraction [nftWEx] nftWEx "NFTADDR" "update" nftEnvEx).updateNames = []
    ∧ (performNFTInteraction [nftWEx] nftWEx "NFTADDR" "updateMetadata" nftEnvEx).result
        = .ok (some "Updated NFT metadata")
    ∧ (performNFTInteraction [nftWEx] nftWEx "NFTADDR" "updateMetadata" nftEnvEx).updateNames
        = ["ONIXIA NFT Updated 777"] := by
  decide

/-- C5 counterexample: `parseInt(input) || default` treats `0` as
falsy, so an interval of 0 — inside the claimed range — cannot be
stored (entering `0` yields the default 1); and a negative entry is
truthy, so `-5` — outside the claimed range — is stored as the
interaction count. -/
theorem C5_settings_counterexample :
    (applySettingsOps [.setInterval "0"] defaultSettings).interactionInterval = 1
    ∧ (applySettingsOps [.setCount "-5"] defaultSettings).interactionCount = -5 := by
  decide

/-- C5 (amended): after any sequence of settings-menu operations both
fields are NONZERO integers (defaults 3 and 1); an entry parsing to a
nonzero integer n — including negative n — is stored as given, while
an entry parsing to 0 or failing to parse stores the default.  Hence
an interval of 0 is not settable and values outside the claimed ranges
are storable. -/
theorem C5_settings_amended :
    (∀ ops : List SettingsOp,
        (applySettingsOps ops defaultSettings).interactionCount ≠ 0
        ∧ (applySettingsOps ops defaultSettings).interactionInterval ≠ 0)
    ∧ ∀ (st : Settings) (input : String) (n : Int), parseIntJs input = some n → n ≠ 0 →
        (applySettingsOp st (.setCount input)).interactionCount = n
        ∧ (applySettingsOp st (.setInterval input)).interactionInterval = n := by
  constructor
  · intro ops
    exact applySettingsOps_nonzero ops defaultSettings (by decide) (by decide)
  · intro st input n hp hn
    constructor <;> simp [applySettingsOp, jsParseOrDefault, hp, hn]

/-- Witness for C5 (amended): a menu entry `7` is stored; the negative
entry `-2` is stored as the interval. -/
theorem C5_settings_amended_witness :
    (applySettingsOps [SettingsOp.setCount "7"] defaultSettings).interactionCount ≠ 0
    ∧ (applySettingsOp defaultSettings (.setInterval "-2")).interactionInterval = -2 :=
  ⟨(C5_settings_amended.1 [SettingsOp.setCount "7"]).1,
   (C5_settings_amended.2 defaultSettings "-2" (-2) (by decide) (by decide)).2⟩

/-- C6 counterexample: with `interactionCount = 2` and both attempts
failing, the two attempts run with NO sleep in between: the
`setTimeout` sits inside the `try` block after the record push, so a
failed iteration skips the inter-iteration delay that the claim
promises regardless of success or failure. -/
theorem C6_sleep_counterexample :
    ((processWallet "Token" TOKEN_INTERACTIONS sTwo wEx1 wenvAllFail).events.countP isSleep) = 0
    ∧ ((processWallet "Token" TOKEN_INTERACTIONS sTwo wEx1 wenvAllFail).events.countP isAttempt)
        = 2 := by
  decide

/-- C6 (amended): within one wallet's interaction phase the
orchestrator sleeps `interactionInterval` minutes exactly after each
successful non-final iteration — the number of sleeps equals the
number of successes among iterations `1 .. interactionCount - 1` —
every sleep has the configured length, and no sleep follows the final
iteration (the wallet's event trace never ends in a sleep). -/
theorem C6_sleep_amended (kind : String) (actions : List String) (s : Settings)
    (w : Wallet) (env : WalletEnv)
    (hb : ¬ env.balance < balanceThreshold) (hd : env.deployOk = true)
    (hn : 1 ≤ s.interactionCount) :
    (processWallet kind actions s w env).events.countP isSleep
        = (List.range' 1 (s.interactionCount.toNat - 1)).countP
            (fun j => isOkE (env.interact j))
    ∧ (∀ e ∈ (processWallet kind actions s w env).events, isSleep e = true →
        e = .sleep (s.interactionInterval * 60 * 1000))
    ∧ ∃ l e, (processWallet kind actions s w env).events = l ++ [e]
        ∧ isSleep e = false := by
  have h1 : (processWallet kind actions s w env).events
      = .deployed w.index env.deployAddr
        :: (interactionIter kind actions s w env s.interactionCount.toNat 1).1 := by
    unfold processWallet
    rw [if_neg hb, if_pos hd]
  refine ⟨?_, ?_, ?_⟩
  · rw [h1, List.countP_cons]
    simp [isSleep, interactionIter_countP_sleep]
  · intro e he hs
    rw [h1] at he
    rcases List.mem_cons.mp he with rfl | he
    · simp [isSleep] at hs
    · exact interactionIter_sleep_value kind actions s w env _ 1 e he hs
  · obtain ⟨l, e, hl, hne⟩ := interactionIter_last_not_sleep kind actions s w env
        s.interactionCount.toNat 1 (by omega)
    exact ⟨.deployed w.index env.deployAddr :: l, e, by rw [h1, hl]; rfl, hne⟩

/-- Witness for C6 (amended): count 3 with interval 0; attempts 1 and
3 succeed, attempt 2 fails, so exactly one (zero-minute) sleep occurs. -/
theorem C6_sleep_amended_witness :
    (processWallet "Token" TOKEN_INTERACTIONS sThreeNoDelay wEx1 wenvMixed).events.countP
      isSleep = 1 := by
  have h := (C6_sleep_amended "Token" TOKEN_INTERACTIONS sThreeNoDelay wEx1 wenvMixed
    (by decide) (by decide) (by decide)).1
  rw [h]
  decide

/-- C7: if the deploy for a wallet fails, the run appends no
DeploymentRecord and no InteractionRecord for that wallet — the record
lists of the run equal those of the same run with the wallet removed,
and no record carries the wallet's index — while the remaining wallets
(before and after it in load order) are still processed. -/
theorem C7_deploy_fail_isolation (kind : String) (actions : List String) (s : Settings)
    (ws1 ws2 : List (Wallet × WalletEnv)) (w : Wallet) (env : WalletEnv)
    (hd : env.deployOk = false)
    (hdis : ∀ p ∈ ws1 ++ ws2, p.1.index ≠ w.index) :
    (runDeployment kind actions s (ws1 ++ (w, env) :: ws2)).deployments
        = (runDeployment kind actions s (ws1 ++ ws2)).deployments
    ∧ (runDeployment kind actions s (ws1 ++ (w, env) :: ws2)).interactions
        = (runDeployment kind actions s (ws1 ++ ws2)).interactions
    ∧ (runDeployment kind actions s (ws1 ++ (w, env) :: ws2)).deployments.filter
        (fun d => d.walletIndex == w.index) = []
    ∧ (runDeployment kind actions s (ws1 ++ (w, env) :: ws2)).interactions.filter
        (fun rec => rec.walletIndex == w.index) = [] := by
  obtain ⟨hdep, hint⟩ := processWallet_deployFailed_empty kind actions s w env hd
  have e1 : (runDeployment kind actions s (ws1 ++ (w, env) :: ws2)).deployments
      = (runDeployment kind actions s (ws1 ++ ws2)).deployments := by
    rw [runDeployment_append kind actions s ws1 ((w, env) :: ws2), runDeployment_cons,
      runDeployment_append kind actions s ws1 ws2]
    simp [hdep]
  have e2 : (runDeployment kind actions s (ws1 ++ (w, env) :: ws2)).interactions
      = (runDeployment kind actions s (ws1 ++ ws2)).interactions := by
    rw [runDeployment_append kind actions s ws1 ((w, env) :: ws2), runDeployment_cons,
      runDeployment_append kind actions s ws1 ws2]
    simp [hint]
  refine ⟨e1, e2, ?_, ?_⟩
  · rw [e1, List.filter_eq_nil_iff]
    intro d hmem
    obtain ⟨p, hp, hpi⟩ := runDeployment_deployments_index kind actions s (ws1 ++ ws2) d hmem
    simp [hpi, hdis p hp]
  · rw [e2, List.filter_eq_nil_iff]
    intro rec hmem
    obtain ⟨p, hp, hpi⟩ := runDeployment_interactions_index kind actions s (ws1 ++ ws2) rec hmem
    simp [hpi, hdis p hp]

/-- Witness for C7: deploy fails for wallet #2 of three; no record
carries index 2. -/
theorem C7_deploy_fail_isolation_witness :
    (runDeployment "Token" TOKEN_INTERACTIONS sTwo
        [(wEx1, wenvAllOk), (wEx2, wenvDeployFail), (wEx3, wenvAllOk)]).deployments.filter
      (fun d => d.walletIndex == wEx2.index) = []
    ∧ (runDeployment "Token" TOKEN_INTERACTIONS sTwo
        [(wEx1, wenvAllOk), (wEx2, wenvDeployFail), (wEx3, wenvAllOk)]).interactions.filter
      (fun rec => rec.walletIndex == wEx2.index) = [] := by
  have h := C7_deploy_fail_isolation "Token" TOKEN_INTERACTIONS sTwo
    [(wEx1, wenvAllOk)] [(wEx3, wenvAllOk)] wEx2 wenvDeployFail (by decide) (by decide)
  exact ⟨h.2.2.1, h.2.2.2⟩

/-- C9 counterexample: two report generations within the same
millisecond (`Date.now()` is only non-decreasing) produce the SAME
file name; and the lexicographic-descending listing is not newest
first across timestamps of different digit lengths — the file for
time 9 is listed before the newer file for time 10. -/
theorem C9_report_counterexample :
    generatedReportName (fun _ => 1700000000000) 0
        = generatedReportName (fun _ => 1700000000000) 1
    ∧ listPreviousReports [reportFilename 9, reportFilename 10]
        = [reportFilename 9, reportFilename 10] := by
  exact ⟨rfl, by decide⟩

/-- C9 (amended): report file names embed the millisecond clock
injectively, so two generations produce distinct names exactly when
their clock readings differ (same-millisecond generations collide);
the listing of previous reports returns the persisted `sonic-report-`
files in descending lexicographic name order — a permutation of the
filtered directory listing — which coincides with newest-first only
among names whose embedded timestamps have equal digit length. -/
theorem C9_report_naming_amended :
    (∀ t u : Nat, t ≠ u → reportFilename t ≠ reportFilename u)
    ∧ ∀ files : List String,
        (listPreviousReports files).Pairwise (fun a b => jsStrLe b a)
        ∧ List.Perm (listPreviousReports files)
            (files.filter fun f => isReportFile f) := by
  constructor
  · intro t u hne heq
    apply hne
    have hdata := congrArg String.data heq
    simp only [String.data_append] at hdata
    exact decRepr_injective (String.ext
      (List.append_cancel_left (List.append_cancel_right hdata)))
  · intro files
    constructor
    · unfold listPreviousReports
      rw [List.pairwise_reverse]
      exact List.sorted_insertionSort jsStrLe (files.filter fun f => isReportFile f)
    · unfold listPreviousReports
      exact (List.reverse_perm _).trans (List.perm_insertionSort _ _)

/-- Witness for C9 (amended): names for times 5 and 6 differ, and a
concrete listing is lexicographically descending. -/
theorem C9_report_naming_amended_witness :
    reportFilename 5 ≠ reportFilename 6
    ∧ (listPreviousReports [reportFilename 12, "other.txt", reportFilename 3]).Pairwise
        (fun a b => jsStrLe b a) :=
  ⟨C9_report_naming_amended.1 5 6 (by decide),
   (C9_report_naming_amended.2 [reportFilename 12, "other.txt", reportFilename 3]).1⟩

/-- C10: when the given asset address is absent from the wallet's
`tokenAccounts` map, `performTokenInteraction` fails with
`Token not found` for every action, consuming zero random draws and
attempting zero chain submissions; and an erroring interaction attempt
appends no InteractionRecord (an interaction phase whose attempts all
fail logs nothing), so the logs are unchanged. -/
theorem C10_token_not_found_early (wallets : List Wallet) (wallet : Wallet)
    (tokenData : TokenData) (action : String) (env : InteractEnv)
    (hlook : List.lookup tokenData.address wallet.tokenAccounts = none) :
    performTokenInteraction wallets wallet tokenData action env
        = { result := .error "Token not found", draws := 0, submissions := 0 }
    ∧ ∀ (kind : String) (actions : List String) (s : Settings) (w : Wallet)
        (wenv : WalletEnv), (∀ j, isOkE (wenv.interact j) = false) →
        ∀ r i, (interactionIter kind actions s w wenv r i).2 = [] := by
  constructor
  · unfold performTokenInteraction
    rw [hlook]
  · intro kind actions s w wenv hfail r i
    exact interactionIter_all_fail_no_records kind actions s w wenv hfail r i

/-- Witness for C10: wallet #2 has an empty token map, so `mint` on it
fails with `Token not found`; an all-failing interaction phase appends
no records. -/
theorem C10_token_not_found_early_witness :
    (performTokenInteraction [wEx2] wEx2 tdEx "mint" envEx).result
        = .error "Token not found"
    ∧ (interactionIter "Token" TOKEN_INTERACTIONS sTwo wEx1 wenvAllFail 2 1).2 = [] := by
  have h := C10_token_not_found_early [wEx2] wEx2 tdEx "mint" envEx (by decide)
  exact ⟨by rw [h.1], h.2 "Token" TOKEN_INTERACTIONS sTwo wEx1 wenvAllFail (fun j => rfl) 2 1⟩

end Sonic
